import Mathlib

/-!
Verification of the in-memory CRUD item service in src/src/main.rs.

The service keeps a HashMap from Uuid to Item behind a read/write lock and
exposes list, get, create, update and delete handlers. We embed it shallowly:

* Uuids are modelled as Nat; Uuid::new_v4, whose contract is to supply a
  fresh identifier, is modelled as a fresh-id counter carried in AppState.
* chrono timestamps are modelled as Nat; each handler that calls
  chrono::Utc::now() takes the current time as an explicit argument, and
  reachability of states requires the clock to be monotone across calls.
* The HashMap is modelled as an association list with no duplicate keys;
  insert replaces any existing binding, lookup returns the first binding.
* Handlers are state-passing functions returning an HttpReply and the new
  AppState; read-only handlers return the state they were given, mirroring
  the fact that the Rust code only takes the read lock there.
* serde deserialization of the request bodies is modelled on a small JSON
  field type distinguishing an absent field, a JSON null, and a string.
-/

namespace DemoRustApi

abbrev Uuid := Nat
abbrev Timestamp := Nat

/-- The Item record of main.rs (struct Item). -/
structure Item where
  id : Uuid
  name : String
  description : Option String
  created_at : Timestamp
  updated_at : Timestamp
deriving DecidableEq

/-- struct CreateItemRequest: name is a required String, description optional. -/
structure CreateItemRequest where
  name : String
  description : Option String
deriving DecidableEq

/-- struct UpdateItemRequest: both fields optional. -/
structure UpdateItemRequest where
  name : Option String
  description : Option String
deriving DecidableEq

/-- struct ApiResponse: the JSON envelope `{success, data, message}`. -/
structure ApiResponse (α : Type) where
  success : Bool
  data : Option α
  message : Option String
deriving DecidableEq

/-- A handler result: HTTP status code together with the envelope body. -/
structure HttpReply (α : Type) where
  status : Nat
  body : ApiResponse α
deriving DecidableEq

/-- One JSON field of a request body: absent, JSON null, or a string. -/
inductive JsonField where
  | absent : JsonField
  | null : JsonField
  | str : String → JsonField
deriving DecidableEq

/-- Raw JSON body of a create request, before serde deserialization. -/
structure CreateBody where
  name : JsonField
  description : JsonField
deriving DecidableEq

/-- Raw JSON body of an update request, before serde deserialization. -/
structure UpdateBody where
  name : JsonField
  description : JsonField
deriving DecidableEq

/-- serde deserialization of CreateItemRequest: the field `name: String` must
be present and a string (absent or null fails); `description: Option<String>`
maps absent and null to None. -/
def deserializeCreate (b : CreateBody) : Option CreateItemRequest :=
  match b.name with
  | JsonField.str s =>
      some { name := s,
             description :=
               match b.description with
               | JsonField.str d => some d
               | _ => none }
  | _ => none

/-- serde deserialization of UpdateItemRequest: both fields are
`Option<String>`, so an absent field and a JSON null both become None; it
never fails on these shapes. -/
def deserializeUpdate (b : UpdateBody) : UpdateItemRequest :=
  { name :=
      match b.name with
      | JsonField.str s => some s
      | _ => none,
    description :=
      match b.description with
      | JsonField.str d => some d
      | _ => none }

/-- The HashMap<Uuid, Item>, as an association list. -/
abbrev Store := List (Uuid × Item)

/-- HashMap::get: first binding with the given key. -/
def storeLookup : Store → Uuid → Option Item
  | [], _ => none
  | kv :: rest, k => if kv.1 = k then some kv.2 else storeLookup rest k

/-- Drop every binding at the given key (there is at most one in a store
with distinct keys). -/
def storeErase : Store → Uuid → Store
  | [], _ => []
  | kv :: rest, k => if kv.1 = k then storeErase rest k else kv :: storeErase rest k

/-- HashMap::insert: bind the key, replacing any existing binding. -/
def storeInsert (s : Store) (k : Uuid) (v : Item) : Store :=
  (k, v) :: storeErase s k

/-- HashMap::get_mut followed by in-place mutation: rewrite the value at the
key with f, leaving everything else in place. -/
def storeModify (s : Store) (k : Uuid) (f : Item → Item) : Store :=
  s.map (fun kv => if kv.1 = k then (kv.1, f kv.2) else kv)

/-- HashMap::remove: drop the binding at the key, reporting the old value. -/
def storeRemove (s : Store) (k : Uuid) : Option Item × Store :=
  (storeLookup s k, storeErase s k)

/-- The keys of the store. -/
def storeKeys (s : Store) : List Uuid := s.map Prod.fst

/-- struct AppState: the shared map, plus the fresh-id counter modelling
Uuid::new_v4's fresh-identifier supply. -/
structure AppState where
  items : Store
  nextId : Uuid
deriving DecidableEq

/-- The state at process start: an empty map. -/
def initialState : AppState := { items := [], nextId := 0 }

/-- The not-found message built by the handlers:
format!("Item with id {} not found", id). -/
def notFoundMessage (id : Uuid) : String :=
  "Item with id " ++ toString id ++ " not found"

/-- Handler list_items: read lock, collect all values, 200 envelope. -/
def list_items (st : AppState) : HttpReply (List Item) × AppState :=
  ({ status := 200,
     body := { success := true,
               data := some (st.items.map Prod.snd),
               message := none } },
   st)

/-- Handler get_item: read lock, lookup; 200 with a copy of the item, or 404
with a message naming the id. -/
def get_item (id : Uuid) (st : AppState) : HttpReply Item × AppState :=
  match storeLookup st.items id with
  | some item =>
      ({ status := 200,
         body := { success := true, data := some item, message := none } },
       st)
  | none =>
      ({ status := 404,
         body := { success := false, data := none,
                   message := some (notFoundMessage id) } },
       st)

/-- The Item built by create_item from a payload, the current time and the
freshly generated id. -/
def mkItem (payload : CreateItemRequest) (now : Timestamp) (id : Uuid) : Item :=
  { id := id,
    name := payload.name,
    description := payload.description,
    created_at := now,
    updated_at := now }

/-- Handler create_item: build the Item with a fresh id and now for both
timestamps, insert it, answer 201 with the item. -/
def create_item (payload : CreateItemRequest) (now : Timestamp) (st : AppState) :
    HttpReply Item × AppState :=
  let item := mkItem payload now st.nextId
  ({ status := 201,
     body := { success := true,
               data := some item,
               message := some "Item created successfully" } },
   { items := storeInsert st.items item.id item,
     nextId := st.nextId + 1 })

/-- Handler update_item: write lock, get_mut; if present overwrite the fields
that were supplied, refresh updated_at, answer 200 with the updated copy;
if absent answer 404 and leave the state alone. -/
def update_item (id : Uuid) (payload : UpdateItemRequest) (now : Timestamp)
    (st : AppState) : HttpReply Item × AppState :=
  match storeLookup st.items id with
  | some item =>
      let item' : Item :=
        { item with
          name := match payload.name with
                  | some n => n
                  | none => item.name,
          description := match payload.description with
                         | some d => some d
                         | none => item.description,
          updated_at := now }
      ({ status := 200,
         body := { success := true,
                   data := some item',
                   message := some "Item updated successfully" } },
       { st with items := storeModify st.items id (fun _ => item') })
  | none =>
      ({ status := 404,
         body := { success := false, data := none,
                   message := some (notFoundMessage id) } },
       st)

/-- Handler delete_item: write lock, remove; 200 with null data if the id was
present, 404 with a message naming the id otherwise. -/
def delete_item (id : Uuid) (st : AppState) : HttpReply Unit × AppState :=
  match storeRemove st.items id with
  | (some _, rest) =>
      ({ status := 200,
         body := { success := true, data := none,
                   message := some "Item deleted successfully" } },
       { st with items := rest })
  | (none, _) =>
      ({ status := 404,
         body := { success := false, data := none,
                   message := some (notFoundMessage id) } },
       st)

/-- The POST endpoint as seen by a client: the axum Json extractor
deserializes the body before create_item runs.
Modelled from the spec: the extractor itself is library code outside this
repository; per the spec a body that fails to deserialize is surfaced as a
400 malformed-input response and the handler never runs, so the state is
unchanged. The 400 body shape is framework-defined and modelled as a plain
failure envelope. -/
def createEndpoint (b : CreateBody) (now : Timestamp) (st : AppState) :
    HttpReply Item × AppState :=
  match deserializeCreate b with
  | some payload => create_item payload now st
  | none =>
      ({ status := 400,
         body := { success := false, data := none,
                   message := some "malformed request body" } },
       st)

/-- The PUT endpoint as seen by a client: deserialization of the update body
never fails on the shapes modelled here, then update_item runs. -/
def updateEndpoint (id : Uuid) (b : UpdateBody) (now : Timestamp)
    (st : AppState) : HttpReply Item × AppState :=
  update_item id (deserializeUpdate b) now st

/-! ## Lemmas about the store operations -/

theorem storeLookup_cons (kv : Uuid × Item) (rest : Store) (j : Uuid) :
    storeLookup (kv :: rest) j =
      if kv.1 = j then some kv.2 else storeLookup rest j := rfl

theorem storeErase_cons (kv : Uuid × Item) (rest : Store) (k : Uuid) :
    storeErase (kv :: rest) k =
      if kv.1 = k then storeErase rest k else kv :: storeErase rest k := rfl

theorem storeModify_cons (kv : Uuid × Item) (rest : Store) (k : Uuid)
    (f : Item → Item) :
    storeModify (kv :: rest) k f =
      (if kv.1 = k then (kv.1, f kv.2) else kv) :: storeModify rest k f := rfl

theorem storeLookup_erase_ne (s : Store) (k j : Uuid) (h : j ≠ k) :
    storeLookup (storeErase s k) j = storeLookup s j := by
  induction s with
  | nil => rfl
  | cons kv rest ih =>
      rw [storeErase_cons]
      by_cases hk : kv.1 = k
      · have hj : kv.1 ≠ j := fun hkvj => h (by rw [← hkvj]; exact hk)
        rw [if_pos hk, ih, storeLookup_cons, if_neg hj]
      · rw [if_neg hk, storeLookup_cons, storeLookup_cons]
        by_cases hj : kv.1 = j
        · rw [if_pos hj, if_pos hj]
        · rw [if_neg hj, if_neg hj, ih]

theorem storeLookup_erase_self (s : Store) (k : Uuid) :
    storeLookup (storeErase s k) k = none := by
  induction s with
  | nil => rfl
  | cons kv rest ih =>
      rw [storeErase_cons]
      by_cases hk : kv.1 = k
      · rw [if_pos hk, ih]
      · rw [if_neg hk, storeLookup_cons, if_neg hk, ih]

theorem storeLookup_insert (s : Store) (k j : Uuid) (v : Item) :
    storeLookup (storeInsert s k v) j =
      if k = j then some v else storeLookup s j := by
  by_cases hk : k = j
  · rw [if_pos hk, storeInsert, storeLookup_cons, if_pos hk]
  · have hj : j ≠ k := fun hj => hk hj.symm
    rw [if_neg hk, storeInsert, storeLookup_cons, if_neg hk,
      storeLookup_erase_ne s k j hj]

theorem storeLookup_modify (s : Store) (k j : Uuid) (f : Item → Item) :
    storeLookup (storeModify s k f) j =
      if k = j then Option.map f (storeLookup s j) else storeLookup s j := by
  induction s with
  | nil => simp [storeModify, storeLookup]
  | cons kv rest ih =>
      rw [storeModify_cons]
      by_cases hk : kv.1 = k
      · rw [if_pos hk, storeLookup_cons]
        by_cases hj : kv.1 = j
        · have hkj : k = j := by rw [← hk, hj]
          simp only [hj, if_pos rfl, if_pos hkj, storeLookup_cons]
          simp [hj]
        · have hkj : ¬k = j := fun hc => hj (by rw [hk, hc])
          rw [if_neg hj, if_neg hkj, ih, if_neg hkj, storeLookup_cons, if_neg hj]
      · rw [if_neg hk, storeLookup_cons]
        by_cases hj : kv.1 = j
        · have hkj : ¬k = j := fun hc => hk (by rw [hj, ← hc])
          rw [if_pos hj, if_neg hkj, storeLookup_cons, if_pos hj]
        · rw [if_neg hj, ih, storeLookup_cons, if_neg hj]

theorem storeLookup_mem (s : Store) (k : Uuid) (v : Item)
    (h : storeLookup s k = some v) : (k, v) ∈ s := by
  induction s with
  | nil => simp [storeLookup] at h
  | cons kv rest ih =>
      rw [storeLookup_cons] at h
      by_cases hk : kv.1 = k
      · rw [if_pos hk] at h
        cases kv
        simp_all
      · rw [if_neg hk] at h
        exact List.mem_cons_of_mem _ (ih h)

theorem storeKeys_modify (s : Store) (k : Uuid) (f : Item → Item) :
    storeKeys (storeModify s k f) = storeKeys s := by
  induction s with
  | nil => rfl
  | cons kv rest ih =>
      rw [storeModify_cons]
      by_cases hk : kv.1 = k
      · rw [if_pos hk]
        simp only [storeKeys, List.map_cons] at ih ⊢
        rw [ih]
      · rw [if_neg hk]
        simp only [storeKeys, List.map_cons] at ih ⊢
        rw [ih]

theorem mem_storeErase (s : Store) (k : Uuid) (kv : Uuid × Item)
    (h : kv ∈ storeErase s k) : kv ∈ s ∧ kv.1 ≠ k := by
  induction s with
  | nil => simp [storeErase] at h
  | cons kv' rest ih =>
      rw [storeErase_cons] at h
      by_cases hk : kv'.1 = k
      · rw [if_pos hk] at h
        exact ⟨List.mem_cons_of_mem _ (ih h).1, (ih h).2⟩
      · rw [if_neg hk] at h
        rcases List.mem_cons.mp h with h | h
        · subst h
          exact ⟨List.mem_cons_self _ _, hk⟩
        · exact ⟨List.mem_cons_of_mem _ (ih h).1, (ih h).2⟩

theorem storeKeys_nodup_erase (s : Store) (k : Uuid)
    (h : (storeKeys s).Nodup) :
    (storeKeys (storeErase s k)).Nodup := by
  induction s with
  | nil => simp [storeErase, storeKeys]
  | cons kv rest ih =>
      have hx : (kv.1 :: List.map Prod.fst rest).Nodup := h
      have h' := List.nodup_cons.mp hx
      rw [storeErase_cons]
      by_cases hk : kv.1 = k
      · rw [if_pos hk]
        exact ih h'.2
      · rw [if_neg hk]
        simp only [storeKeys, List.map_cons]
        refine List.nodup_cons.mpr ⟨?_, ih h'.2⟩
        intro hmem
        obtain ⟨kv', hkv', hfst⟩ := List.mem_map.mp hmem
        have hmem' := (mem_storeErase rest k kv' hkv').1
        exact h'.1 (hfst ▸ List.mem_map_of_mem Prod.fst hmem')

theorem storeKeys_nodup_insert (s : Store) (k : Uuid) (v : Item)
    (h : (storeKeys s).Nodup) :
    (storeKeys (storeInsert s k v)).Nodup := by
  rw [storeInsert]
  simp only [storeKeys, List.map_cons]
  refine List.nodup_cons.mpr ⟨?_, ?_⟩
  · intro hmem
    obtain ⟨kv', hkv', hfst⟩ := List.mem_map.mp hmem
    exact (mem_storeErase s k kv' hkv').2 hfst
  · exact storeKeys_nodup_erase s k h

theorem storeLookup_eq_of_mem (s : Store) (h : (storeKeys s).Nodup)
    (kv : Uuid × Item) (hm : kv ∈ s) : storeLookup s kv.1 = some kv.2 := by
  induction s with
  | nil => simp at hm
  | cons kv' rest ih =>
      have hx : (kv'.1 :: List.map Prod.fst rest).Nodup := h
      have h' := List.nodup_cons.mp hx
      rcases List.mem_cons.mp hm with heq | hmem
      · subst heq
        rw [storeLookup_cons, if_pos rfl]
      · rw [storeLookup_cons]
        by_cases hk : kv'.1 = kv.1
        · exact absurd (hk ▸ List.mem_map_of_mem Prod.fst hmem) h'.1
        · rw [if_neg hk]
          exact ih h'.2 hmem

/-! ## Reachable states

The states a single-threaded client (or, by the lock discipline, any
linearized sequence of requests) can drive the service into, starting from
the empty map. Each mutating request carries the wall-clock time it observed;
the clock is monotone across requests. The third component is the ghost list
of ids that create has handed out so far, deleted ones included. -/

/-- The ids a create request hands out: the fresh id when the body
deserializes, nothing when the extractor rejects it. -/
def createdIds (st : AppState) (b : CreateBody) : List Uuid :=
  match deserializeCreate b with
  | some _ => [st.nextId]
  | none => []

inductive Reachable : AppState → Timestamp → List Uuid → Prop where
  | init : Reachable initialState 0 []
  | stepCreate {st : AppState} {t : Timestamp} {ids : List Uuid}
      (b : CreateBody) (now : Timestamp)
      (h : Reachable st t ids) (hmono : t ≤ now) :
      Reachable (createEndpoint b now st).2 now (createdIds st b ++ ids)
  | stepUpdate {st : AppState} {t : Timestamp} {ids : List Uuid}
      (id : Uuid) (b : UpdateBody) (now : Timestamp)
      (h : Reachable st t ids) (hmono : t ≤ now) :
      Reachable (updateEndpoint id b now st).2 now ids
  | stepDelete {st : AppState} {t : Timestamp} {ids : List Uuid}
      (id : Uuid) (h : Reachable st t ids) :
      Reachable (delete_item id st).2 t ids

/-- The store invariant: keys are distinct; every stored binding carries its
own key as the item id, has created_at ≤ updated_at, was last touched no
later than the clock, and has a key below the fresh-id counter; and every id
ever created is below the fresh-id counter. -/
def Inv (st : AppState) (t : Timestamp) (ids : List Uuid) : Prop :=
  (storeKeys st.items).Nodup ∧
  (∀ kv ∈ st.items, kv.2.id = kv.1 ∧ kv.2.created_at ≤ kv.2.updated_at ∧
     kv.2.updated_at ≤ t ∧ kv.1 < st.nextId) ∧
  (∀ i ∈ ids, i < st.nextId)

theorem reachable_inv {st : AppState} {t : Timestamp} {ids : List Uuid}
    (h : Reachable st t ids) : Inv st t ids := by
  induction h with
  | init =>
      refine ⟨by simp [initialState, storeKeys], ?_, ?_⟩ <;>
        simp [initialState]
  | stepCreate b now h hmono ih =>
      obtain ⟨hnodup, hitems, hids⟩ := ih
      rename_i st t ids
      rw [createEndpoint, createdIds]
      cases hdes : deserializeCreate b with
      | none =>
          refine ⟨hnodup, fun kv hm => ?_, by simpa using hids⟩
          obtain ⟨h1, h2, h3, h4⟩ := hitems kv hm
          exact ⟨h1, h2, le_trans h3 hmono, h4⟩
      | some p =>
          refine ⟨storeKeys_nodup_insert _ _ _ hnodup, ?_, ?_⟩
          · intro kv hm
            rw [show (create_item p now st).2.items =
                  storeInsert st.items st.nextId (mkItem p now st.nextId) from rfl,
                storeInsert] at hm
            rcases List.mem_cons.mp hm with heq | hmem
            · subst heq
              exact ⟨rfl, le_refl _, le_refl _, Nat.lt_succ_self _⟩
            · obtain ⟨hm', _⟩ := mem_storeErase _ _ _ hmem
              obtain ⟨h1, h2, h3, h4⟩ := hitems kv hm'
              exact ⟨h1, h2, le_trans h3 hmono, Nat.lt_succ_of_lt h4⟩
          · intro i hi
            rcases List.mem_cons.mp hi with heq | hmem
            · subst heq
              exact Nat.lt_succ_self _
            · exact Nat.lt_succ_of_lt (hids i hmem)
  | stepUpdate id b now h hmono ih =>
      obtain ⟨hnodup, hitems, hids⟩ := ih
      rename_i st t ids
      rw [updateEndpoint, update_item]
      cases hlk : storeLookup st.items id with
      | none =>
          refine ⟨hnodup, fun kv hm => ?_, hids⟩
          obtain ⟨h1, h2, h3, h4⟩ := hitems kv hm
          exact ⟨h1, h2, le_trans h3 hmono, h4⟩
      | some item =>
          have hmem0 := storeLookup_mem _ _ _ hlk
          obtain ⟨hid0, hcu0, hut0, hlt0⟩ := hitems _ hmem0
          refine ⟨by rw [storeKeys_modify]; exact hnodup, ?_, hids⟩
          intro kv hm
          obtain ⟨kv0, hkv0, heq⟩ := List.mem_map.mp hm
          by_cases hk : kv0.1 = id
          · rw [if_pos hk] at heq
            subst heq
            refine ⟨?_, ?_, ?_, ?_⟩
            · show item.id = kv0.1
              rw [hid0, hk]
            · show item.created_at ≤ now
              exact le_trans (le_trans hcu0 hut0) hmono
            · exact le_refl now
            · show kv0.1 < st.nextId
              rw [hk]
              exact hlt0
          · rw [if_neg hk] at heq
            subst heq
            obtain ⟨h1, h2, h3, h4⟩ := hitems kv0 hkv0
            exact ⟨h1, h2, le_trans h3 hmono, h4⟩
  | stepDelete id h ih =>
      obtain ⟨hnodup, hitems, hids⟩ := ih
      rename_i st t ids
      rw [delete_item, storeRemove]
      cases hlk : storeLookup st.items id with
      | none => exact ⟨hnodup, hitems, hids⟩
      | some item =>
          refine ⟨storeKeys_nodup_erase _ _ hnodup, ?_, hids⟩
          intro kv hm
          exact hitems kv (mem_storeErase _ _ _ hm).1

/-! ## Witness data: a one-item store -/

/-- A concrete item used by the witnesses. -/
def itemW : Item :=
  { id := 0, name := "Widget", description := some "A widget",
    created_at := 1, updated_at := 1 }

/-- A concrete one-item state used by the witnesses. -/
def stW : AppState := { items := [(0, itemW)], nextId := 1 }

/-! ## The claims -/

/-- C1, counterexample: the claim says a create body whose name is the empty
string fails with 400 and adds nothing, but on the code a body with
name = "" deserializes fine, create answers 201 and the item is stored. -/
theorem create_blank_name_accepted :
    (createEndpoint { name := JsonField.str "", description := JsonField.absent }
        0 initialState).1.status = 201 ∧
    storeLookup (createEndpoint
        { name := JsonField.str "", description := JsonField.absent }
        0 initialState).2.items 0 =
      some { id := 0, name := "", description := none,
             created_at := 0, updated_at := 0 } :=
  ⟨rfl, rfl⟩

/-- C1, amended: a create body whose name field is missing (absent or JSON
null) fails to deserialize, is rejected with 400 and adds nothing; a body
whose name is any string — the empty string included — deserializes, and
create answers 201 with an envelope wrapping the newly created Item, which
is stored under its fresh id. -/
theorem create_missing_name_rejected_present_name_created
    (b : CreateBody) (now : Timestamp) (st : AppState) :
    match deserializeCreate b with
    | none =>
        (createEndpoint b now st).1.status = 400 ∧
        (createEndpoint b now st).2 = st
    | some p =>
        (createEndpoint b now st).1.status = 201 ∧
        (createEndpoint b now st).1.body.success = true ∧
        (createEndpoint b now st).1.body.data = some (mkItem p now st.nextId) ∧
        storeLookup (createEndpoint b now st).2.items st.nextId =
          some (mkItem p now st.nextId) := by
  cases hdes : deserializeCreate b with
  | none =>
      rw [createEndpoint, hdes]
      exact ⟨rfl, rfl⟩
  | some p =>
      rw [createEndpoint, hdes]
      refine ⟨rfl, rfl, rfl, ?_⟩
      rw [show (create_item p now st).2.items =
            storeInsert st.items st.nextId (mkItem p now st.nextId) from rfl,
        storeLookup_insert, if_pos rfl]

/-- C2: a successful update changes only the fields the body supplied — an
omitted name keeps the stored name, an omitted description keeps the stored
description, a supplied field is overwritten — while id and created_at stay
as they were, updated_at becomes the current time, every other binding of
the store is untouched and the fresh-id counter does not move. -/
theorem update_applies_only_supplied_fields
    (id : Uuid) (p : UpdateItemRequest) (now : Timestamp) (st : AppState)
    (item : Item) (h : storeLookup st.items id = some item) :
    (update_item id p now st).1.status = 200 ∧
    ∃ item',
      (update_item id p now st).1.body.data = some item' ∧
      item'.id = item.id ∧
      item'.created_at = item.created_at ∧
      item'.updated_at = now ∧
      (p.name = none → item'.name = item.name) ∧
      (∀ n, p.name = some n → item'.name = n) ∧
      (p.description = none → item'.description = item.description) ∧
      (∀ d, p.description = some d → item'.description = some d) ∧
      storeLookup (update_item id p now st).2.items id = some item' ∧
      (∀ j, j ≠ id →
        storeLookup (update_item id p now st).2.items j = storeLookup st.items j) ∧
      (update_item id p now st).2.nextId = st.nextId := by
  rw [update_item, h]
  refine ⟨rfl,
    { item with
      name := match p.name with | some n => n | none => item.name,
      description := match p.description with
                     | some d => some d
                     | none => item.description,
      updated_at := now },
    rfl, rfl, rfl, rfl, ?_, ?_, ?_, ?_, ?_, ?_, rfl⟩
  · intro hn
    rw [hn]
  · intro n hn
    rw [hn]
  · intro hd
    rw [hd]
  · intro d hd
    rw [hd]
  · rw [show ({ st with items := storeModify st.items id _ } : AppState).items =
        storeModify st.items id _ from rfl, storeLookup_modify, if_pos rfl, h]
    rfl
  · intro j hj
    rw [show ({ st with items := storeModify st.items id _ } : AppState).items =
        storeModify st.items id _ from rfl, storeLookup_modify,
      if_neg (fun hc => hj hc.symm)]

/-- C2 witness: updating the one-item store with an empty body at time 5. -/
theorem update_applies_only_supplied_fields_witness :
    (update_item 0 { name := none, description := none } 5 stW).1.status = 200 ∧
    ∃ item',
      (update_item 0 { name := none, description := none } 5 stW).1.body.data = some item' ∧
      item'.id = itemW.id ∧
      item'.created_at = itemW.created_at ∧
      item'.updated_at = 5 ∧
      (({ name := none, description := none } : UpdateItemRequest).name = none →
        item'.name = itemW.name) ∧
      (∀ n, ({ name := none, description := none } : UpdateItemRequest).name = some n →
        item'.name = n) ∧
      (({ name := none, description := none } : UpdateItemRequest).description = none →
        item'.description = itemW.description) ∧
      (∀ d, ({ name := none, description := none } : UpdateItemRequest).description = some d →
        item'.description = some d) ∧
      storeLookup (update_item 0 { name := none, description := none } 5 stW).2.items 0 =
        some item' ∧
      (∀ j, j ≠ 0 →
        storeLookup (update_item 0 { name := none, description := none } 5 stW).2.items j =
          storeLookup stW.items j) ∧
      (update_item 0 { name := none, description := none } 5 stW).2.nextId = stW.nextId :=
  update_applies_only_supplied_fields 0 { name := none, description := none } 5 stW itemW rfl

/-- C3: an update aimed at an id that is not in the store answers 404 with a
failure envelope naming the id, and returns the state exactly as it was —
nothing is partially applied. -/
theorem update_absent_id_leaves_state_unchanged
    (id : Uuid) (p : UpdateItemRequest) (now : Timestamp) (st : AppState)
    (h : storeLookup st.items id = none) :
    update_item id p now st =
      ({ status := 404,
         body := { success := false, data := none,
                   message := some (notFoundMessage id) } },
       st) := by
  rw [update_item, h]

/-- C3 witness: updating id 7, absent from the one-item store. -/
theorem update_absent_id_leaves_state_unchanged_witness :
    update_item 7 { name := some "x", description := none } 5 stW =
      ({ status := 404,
         body := { success := false, data := none,
                   message := some (notFoundMessage 7) } },
       stW) :=
  update_absent_id_leaves_state_unchanged 7 { name := some "x", description := none } 5 stW rfl

/-- C4: in every state reachable by any sequence of create, update and
delete requests from the empty store under a monotone clock, every stored
Item has created_at ≤ updated_at, and the ids of the stored Items are
pairwise distinct. -/
theorem reachable_state_invariants
    (st : AppState) (t : Timestamp) (ids : List Uuid)
    (h : Reachable st t ids) :
    (∀ kv ∈ st.items, kv.2.created_at ≤ kv.2.updated_at) ∧
    (st.items.map (fun kv => kv.2.id)).Nodup := by
  have hinv := reachable_inv h
  refine ⟨fun kv hm => (hinv.2.1 kv hm).2.1, ?_⟩
  have heq : st.items.map (fun kv => kv.2.id) = storeKeys st.items :=
    List.map_congr_left (fun kv hm => (hinv.2.1 kv hm).1)
  rw [heq]
  exact hinv.1

/-- C4 witness: the state after one create at time 3 followed by one update
at time 5 satisfies the invariants. -/
theorem reachable_state_invariants_witness :
    (∀ kv ∈ (updateEndpoint 0
        { name := JsonField.str "W2", description := JsonField.absent } 5
        (createEndpoint
          { name := JsonField.str "Widget", description := JsonField.str "A widget" }
          3 initialState).2).2.items,
      kv.2.created_at ≤ kv.2.updated_at) ∧
    ((updateEndpoint 0
        { name := JsonField.str "W2", description := JsonField.absent } 5
        (createEndpoint
          { name := JsonField.str "Widget", description := JsonField.str "A widget" }
          3 initialState).2).2.items.map (fun kv => kv.2.id)).Nodup :=
  reachable_state_invariants _ _ _
    (Reachable.stepUpdate 0
      { name := JsonField.str "W2", description := JsonField.absent } 5
      (Reachable.stepCreate
        { name := JsonField.str "Widget", description := JsonField.str "A widget" }
        3 Reachable.init (Nat.zero_le 3))
      (by decide))

/-- C5: in any reachable state, create hands back an envelope wrapping an
Item whose created_at equals its updated_at and whose id was never handed
out by any earlier create (deleted ids included) and is absent from the
store. -/
theorem create_fresh_id_and_equal_timestamps
    (st : AppState) (t : Timestamp) (ids : List Uuid)
    (h : Reachable st t ids) (p : CreateItemRequest) (now : Timestamp) :
    (create_item p now st).1.body.data = some (mkItem p now st.nextId) ∧
    (mkItem p now st.nextId).created_at = (mkItem p now st.nextId).updated_at ∧
    (mkItem p now st.nextId).id ∉ ids ∧
    storeLookup st.items (mkItem p now st.nextId).id = none := by
  have hinv := reachable_inv h
  refine ⟨rfl, rfl, ?_, ?_⟩
  · intro hmem
    exact absurd (hinv.2.2 _ hmem) (lt_irrefl st.nextId)
  · cases hlk : storeLookup st.items st.nextId with
    | none => exact hlk
    | some v =>
        have hmem := storeLookup_mem _ _ _ hlk
        exact absurd (hinv.2.1 _ hmem).2.2.2 (lt_irrefl st.nextId)

/-- C5 witness: creating in the empty store at time 0. -/
theorem create_fresh_id_and_equal_timestamps_witness :
    (create_item { name := "Widget", description := none } 0 initialState).1.body.data =
      some (mkItem { name := "Widget", description := none } 0 initialState.nextId) ∧
    (mkItem { name := "Widget", description := none } 0 initialState.nextId).created_at =
      (mkItem { name := "Widget", description := none } 0 initialState.nextId).updated_at ∧
    (mkItem { name := "Widget", description := none } 0 initialState.nextId).id ∉ ([] : List Uuid) ∧
    storeLookup initialState.items
      (mkItem { name := "Widget", description := none } 0 initialState.nextId).id = none :=
  create_fresh_id_and_equal_timestamps initialState 0 [] Reachable.init
    { name := "Widget", description := none } 0

/-- C6: get on the id of the Item a create just returned, run on the state
the create produced, answers 200 with an Item equal in all fields to the one
the create returned, and leaves the state as it was. -/
theorem get_after_create_returns_created_item
    (p : CreateItemRequest) (now : Timestamp) (st : AppState) :
    (create_item p now st).1.body.data = some (mkItem p now st.nextId) ∧
    get_item (mkItem p now st.nextId).id (create_item p now st).2 =
      ({ status := 200,
         body := { success := true,
                   data := some (mkItem p now st.nextId),
                   message := none } },
       (create_item p now st).2) := by
  refine ⟨rfl, ?_⟩
  have hlk : storeLookup (create_item p now st).2.items (mkItem p now st.nextId).id =
      some (mkItem p now st.nextId) := by
    rw [show (create_item p now st).2.items =
          storeInsert st.items st.nextId (mkItem p now st.nextId) from rfl,
      show (mkItem p now st.nextId).id = st.nextId from rfl,
      storeLookup_insert, if_pos rfl]
  rw [get_item, hlk]

/-- C7: delete on a stored id answers 200 and removes exactly that binding;
a get on the id afterwards answers 404, and a second delete answers 404 as
well; both 404 envelopes carry the message naming the missing id. -/
theorem delete_removes_then_get_and_delete_not_found
    (id : Uuid) (st : AppState) (item : Item)
    (h : storeLookup st.items id = some item) :
    (delete_item id st).1.status = 200 ∧
    (delete_item id st).1.body.success = true ∧
    storeLookup (delete_item id st).2.items id = none ∧
    (∀ j, j ≠ id →
      storeLookup (delete_item id st).2.items j = storeLookup st.items j) ∧
    get_item id (delete_item id st).2 =
      ({ status := 404,
         body := { success := false, data := none,
                   message := some (notFoundMessage id) } },
       (delete_item id st).2) ∧
    delete_item id (delete_item id st).2 =
      ({ status := 404,
         body := { success := false, data := none,
                   message := some (notFoundMessage id) } },
       (delete_item id st).2) ∧
    notFoundMessage id = "Item with id " ++ toString id ++ " not found" := by
  have hdel : delete_item id st =
      ({ status := 200,
         body := { success := true, data := none,
                   message := some "Item deleted successfully" } },
       { st with items := storeErase st.items id }) := by
    rw [delete_item, storeRemove, h]
  rw [hdel]
  have herase : storeLookup (storeErase st.items id) id = none :=
    storeLookup_erase_self st.items id
  refine ⟨rfl, rfl, herase, ?_, ?_, ?_, rfl⟩
  · intro j hj
    exact storeLookup_erase_ne st.items id j hj
  · rw [get_item]
    rw [show ({ st with items := storeErase st.items id } : AppState).items =
          storeErase st.items id from rfl, herase]
  · rw [delete_item, storeRemove]
    rw [show ({ st with items := storeErase st.items id } : AppState).items =
          storeErase st.items id from rfl, herase]

/-- C7 witness: deleting the single item of the one-item store. -/
theorem delete_removes_then_get_and_delete_not_found_witness :
    (delete_item 0 stW).1.status = 200 ∧
    (delete_item 0 stW).1.body.success = true ∧
    storeLookup (delete_item 0 stW).2.items 0 = none ∧
    (∀ j, j ≠ 0 →
      storeLookup (delete_item 0 stW).2.items j = storeLookup stW.items j) ∧
    get_item 0 (delete_item 0 stW).2 =
      ({ status := 404,
         body := { success := false, data := none,
                   message := some (notFoundMessage 0) } },
       (delete_item 0 stW).2) ∧
    delete_item 0 (delete_item 0 stW).2 =
      ({ status := 404,
         body := { success := false, data := none,
                   message := some (notFoundMessage 0) } },
       (delete_item 0 stW).2) ∧
    notFoundMessage 0 = "Item with id " ++ toString 0 ++ " not found" :=
  delete_removes_then_get_and_delete_not_found 0 stW itemW rfl

/-- C8: get and list hand the state back exactly as they received it, and
list answers 200 with an envelope wrapping precisely the Items currently in
the store (a copy per binding, possibly none). -/
theorem get_and_list_leave_store_unchanged
    (st : AppState) (id : Uuid) :
    (get_item id st).2 = st ∧
    (list_items st).2 = st ∧
    (list_items st).1 =
      { status := 200,
        body := { success := true,
                  data := some (st.items.map Prod.snd),
                  message := none } } := by
  refine ⟨?_, rfl, rfl⟩
  rw [get_item]
  cases storeLookup st.items id <;> rfl

/-- C9: once a stored item has a description, no update can take it away —
a supplied description replaces it, while an omitted description field and
a JSON-null description field are deserialized identically to None and both
leave the stored description alone, so the whole update endpoint cannot
tell them apart. -/
theorem update_never_clears_description
    (id : Uuid) (b : UpdateBody) (now : Timestamp) (st : AppState)
    (item : Item) (h : storeLookup st.items id = some item)
    (hd : item.description.isSome) :
    (∃ item',
      storeLookup (updateEndpoint id b now st).2.items id = some item' ∧
      item'.description.isSome) ∧
    deserializeUpdate { name := b.name, description := JsonField.absent } =
      deserializeUpdate { name := b.name, description := JsonField.null } ∧
    updateEndpoint id { name := b.name, description := JsonField.absent } now st =
      updateEndpoint id { name := b.name, description := JsonField.null } now st := by
  have hdeq : deserializeUpdate { name := b.name, description := JsonField.absent } =
      deserializeUpdate { name := b.name, description := JsonField.null } := by
    cases b.name <;> rfl
  refine ⟨?_, hdeq, by rw [updateEndpoint, updateEndpoint, hdeq]⟩
  rw [updateEndpoint, update_item, h]
  refine ⟨{ item with
      name := match (deserializeUpdate b).name with
              | some n => n
              | none => item.name,
      description := match (deserializeUpdate b).description with
                     | some d => some d
                     | none => item.description,
      updated_at := now }, ?_, ?_⟩
  · rw [show ({ st with items := storeModify st.items id _ } : AppState).items =
        storeModify st.items id _ from rfl, storeLookup_modify, if_pos rfl, h]
    rfl
  · cases hdes : (deserializeUpdate b).description with
    | some d => simp
    | none => simpa using hd

/-- C9 witness: updating the one-item store (whose item has a description)
with a body whose description is JSON null. -/
theorem update_never_clears_description_witness :
    (∃ item',
      storeLookup (updateEndpoint 0
        { name := JsonField.absent, description := JsonField.null } 5 stW).2.items 0 =
        some item' ∧
      item'.description.isSome) ∧
    deserializeUpdate { name := JsonField.absent, description := JsonField.absent } =
      deserializeUpdate { name := JsonField.absent, description := JsonField.null } ∧
    updateEndpoint 0 { name := JsonField.absent, description := JsonField.absent } 5 stW =
      updateEndpoint 0 { name := JsonField.absent, description := JsonField.null } 5 stW :=
  update_never_clears_description 0
    { name := JsonField.absent, description := JsonField.null } 5 stW itemW rfl rfl

/-- C10: an update whose body carries name = "" on a stored id is accepted —
it answers 200 and the stored item's name becomes the empty string; the
update path checks nothing about name being non-empty. -/
theorem update_accepts_empty_name
    (id : Uuid) (now : Timestamp) (st : AppState) (item : Item)
    (h : storeLookup st.items id = some item) :
    (updateEndpoint id { name := JsonField.str "", description := JsonField.absent }
        now st).1.status = 200 ∧
    ∃ item',
      (updateEndpoint id { name := JsonField.str "", description := JsonField.absent }
          now st).1.body.data = some item' ∧
      item'.name = "" ∧
      storeLookup (updateEndpoint id
          { name := JsonField.str "", description := JsonField.absent }
          now st).2.items id = some item' := by
  rw [updateEndpoint, update_item, h]
  refine ⟨rfl, { item with name := "", updated_at := now }, rfl, rfl, ?_⟩
  rw [show ({ st with items := storeModify st.items id _ } : AppState).items =
      storeModify st.items id _ from rfl, storeLookup_modify, if_pos rfl, h]
  rfl

/-- C10 witness: updating the one-item store with name = "". -/
theorem update_accepts_empty_name_witness :
    (updateEndpoint 0 { name := JsonField.str "", description := JsonField.absent }
        5 stW).1.status = 200 ∧
    ∃ item',
      (updateEndpoint 0 { name := JsonField.str "", description := JsonField.absent }
          5 stW).1.body.data = some item' ∧
      item'.name = "" ∧
      storeLookup (updateEndpoint 0
          { name := JsonField.str "", description := JsonField.absent }
          5 stW).2.items 0 = some item' :=
  update_accepts_empty_name 0 5 stW itemW rfl

end DemoRustApi
